import Mathlib

/-!
Shallow embedding of the `router-services-middleware` package: the service
registry (`ServiceProvider`), the per-request instance cache, the memoized
resolution algorithm (`resolveServiceInternal` / `resolveService`), the
catalog builder (`defineCatalog`), the storage accessors
(`getServiceInstances`, `getServiceProvider`), and the `withServices`
middleware's property-bag construction.

Modelling conventions:
* JavaScript `Map<string, V>` objects and plain objects used as property
  tables are modelled as association lists `List (String × V)`; `mapSet`
  replaces an existing binding in place (keeping its position, as JS does)
  and appends new bindings at the end.
* Exceptions (`throw new Error(msg)`) are modelled with `Except String`.
* Factory invocations are instrumented: every resolution step also returns
  the list of cache keys whose factories were invoked during the step, so
  that "the factory is invoked exactly once / not at all" is a statement
  about that trace.
* The TypeScript union `CatalogEntry | Route` dispatched at runtime by
  `isCatalogEntry` (the `__name` tag test) is modelled by the inductive
  `ServiceIdent`.
-/

namespace RouterServices

/-- A route as consumed by this package: its HTTP method (or the `ANY`
wildcard) and the source text of its pattern (`route.pattern.source`). -/
structure Route where
  method : String
  patternSource : String
deriving DecidableEq, Repr

/-- `ServiceFactory<T> = () => T`: a zero-argument function producing a
service value. -/
def ServiceFactory (α : Type) : Type := Unit → α

/-- A catalog entry as produced by `defineCatalog`: the spread-in fields of
the input `ServiceDef` (runtime-empty for `serviceOf()`, kept generic here
as `payload`) plus the attached `__name` tag that `isCatalogEntry` tests. -/
structure CatalogEntry (δ : Type) where
  payload : δ
  __name : String
deriving DecidableEq, Repr

/-- `serviceOf()` returns a runtime-empty marker object `{}`; its only job
is carrying a static type. -/
def serviceOf : Unit := ()

/-- Lookup in a JS `Map` / object property table keyed by strings. -/
def mapGet? {α : Type} (m : List (String × α)) (k : String) : Option α :=
  match m with
  | [] => none
  | (k', v) :: rest => if k' = k then some v else mapGet? rest k

/-- `Map.prototype.has`. -/
def mapHas {α : Type} (m : List (String × α)) (k : String) : Bool :=
  (mapGet? m k).isSome

/-- `Map.prototype.set` / property assignment: replaces an existing binding
in place (keeping its position) or appends a new one. -/
def mapSet {α : Type} (m : List (String × α)) (k : String) (v : α) :
    List (String × α) :=
  match m with
  | [] => [(k, v)]
  | (k', v') :: rest =>
    if k' = k then (k, v) :: rest else (k', v') :: mapSet rest k v

/-- The composite key used for route-scoped registrations and lookups:
`` `${method}:${pattern.source}:${serviceName}` ``. -/
def routeKey (method patternSource name : String) : String :=
  method ++ ":" ++ patternSource ++ ":" ++ name

/-- The `ServiceProvider` registry: its private `#factories` map from
composite/bare key to factory. -/
structure ServiceProvider (α : Type) where
  factories : List (String × ServiceFactory α)

/-- The runtime-dispatched first argument of `provide` / `resolveService`:
either a catalog entry (recognised by `isCatalogEntry`, i.e. the presence of
a string `__name` field) or a route together with a service name. -/
inductive ServiceIdent (δ : Type) where
  | entry (e : CatalogEntry δ)
  | routeScoped (route : Route) (name : String)
deriving DecidableEq, Repr

/-- `ServiceProvider.provide`: the catalog-entry overload stores the factory
under the bare `__name`; the route overload stores it under the composite
`method:patternSource:name` key.  Either way `Map.set` silently overwrites. -/
def ServiceProvider.provide {α δ : Type} (p : ServiceProvider α)
    (ident : ServiceIdent δ) (factory : ServiceFactory α) : ServiceProvider α :=
  match ident with
  | .entry e => ⟨mapSet p.factories e.__name factory⟩
  | .routeScoped route serviceName =>
    ⟨mapSet p.factories (routeKey route.method route.patternSource serviceName) factory⟩

/-- `ServiceProvider.getFactory`: first try the route-specific composite key,
then fall back to the bare service name, else `undefined`. -/
def ServiceProvider.getFactory {α : Type} (p : ServiceProvider α)
    (route : Route) (serviceName : String) : Option (ServiceFactory α) :=
  match mapGet? p.factories (routeKey route.method route.patternSource serviceName) with
  | some factory => some factory
  | none => mapGet? p.factories serviceName

/-- The synthetic wildcard route `{ method: 'ANY', pattern: { source: '' } }`
passed to `getFactory` on the catalog-entry resolution path. -/
def anyRoute : Route := ⟨"ANY", ""⟩

/-- The per-request instance cache (`ServiceInstances = Map<string, unknown>`). -/
def ServiceInstances (α : Type) : Type := List (String × α)

/-- The canonical cache key of an identifier: bare name for catalog entries,
composite `method:patternSource:name` for route-scoped identifiers. -/
def canonicalKey {δ : Type} : ServiceIdent δ → String
  | .entry e => e.__name
  | .routeScoped route name => routeKey route.method route.patternSource name

/-- The registry query `resolveServiceInternal` performs for an identifier:
the originating route for route-scoped identifiers, the `anyRoute` wildcard
for catalog entries. -/
def identLookup {α δ : Type} (provider : ServiceProvider α) :
    ServiceIdent δ → Option (ServiceFactory α)
  | .entry e => provider.getFactory anyRoute e.__name
  | .routeScoped route name => provider.getFactory route name

/-- The message of the error thrown when no factory is found. -/
def missingServiceMsg {δ : Type} : ServiceIdent δ → String
  | .entry e =>
    "No factory registered for service \"" ++ e.__name ++
      "\". Did you forget to call serviceProvider.provide()?"
  | .routeScoped route name =>
    "No factory registered for service \"" ++ name ++ "\" on route \"" ++
      route.method ++ " " ++ route.patternSource ++
      "\". Did you forget to call serviceProvider.provide()?"

/-- `resolveServiceInternal`: memoized per-request resolution.  Returns the
result (or the thrown error's message), the instance cache after the call
(the JS code mutates the `Map` in place), and the trace of cache keys whose
factories were invoked during the call. -/
def resolveServiceInternal {α δ : Type} (ident : ServiceIdent δ)
    (instances : ServiceInstances α) (provider : ServiceProvider α) :
    Except String α × ServiceInstances α × List String :=
  match ident with
  | .entry e =>
    let name := e.__name
    let key := name
    match mapGet? instances key with
    | some v => (.ok v, instances, [])
    | none =>
      match provider.getFactory anyRoute name with
      | none => (.error (missingServiceMsg (ServiceIdent.entry e)), instances, [])
      | some factory =>
        let inst := factory ()
        (.ok inst, mapSet instances key inst, [key])
  | .routeScoped route name =>
    let key := routeKey route.method route.patternSource name
    match mapGet? instances key with
    | some v => (.ok v, instances, [])
    | none =>
      match provider.getFactory route name with
      | none =>
        (.error (missingServiceMsg (ServiceIdent.routeScoped (δ := δ) route name)), instances, [])
      | some factory =>
        let inst := factory ()
        (.ok inst, mapSet instances key inst, [key])

/-- The request-scoped storage visible to this package: the slot keyed by
`SERVICE_PROVIDER_KEY` and the slot keyed by `SERVICES_INSTANCE_KEY`. -/
structure RequestStorage (α : Type) where
  provider? : Option (ServiceProvider α)
  instances? : Option (ServiceInstances α)

/-- `withServiceProvider` middleware body: stores the provider in the
request scope's storage. -/
def withServiceProvider {α : Type} (serviceProvider : ServiceProvider α)
    (st : RequestStorage α) : RequestStorage α :=
  { st with provider? := some serviceProvider }

/-- `getServiceProvider`: returns the stored provider, or throws when the
`withServiceProvider` middleware was never installed. -/
def getServiceProvider {α : Type} (st : RequestStorage α) :
    Except String (ServiceProvider α) :=
  match st.provider? with
  | none =>
    .error "No service provider found. Make sure the withServiceProvider middleware is installed."
  | some p => .ok p

/-- `getServiceInstances`: returns the request's instance cache, creating
and storing an empty one on first use. -/
def getServiceInstances {α : Type} (st : RequestStorage α) :
    ServiceInstances α × RequestStorage α :=
  match st.instances? with
  | none => ([], { st with instances? := some ([] : ServiceInstances α) })
  | some m => (m, st)

/-- `resolveService`: obtains the cache and the provider from the request
scope (in that order, as the source does), resolves, and reflects the
in-place mutation of the cached `Map` back into the storage slot. -/
def resolveService {α δ : Type} (ident : ServiceIdent δ) (st : RequestStorage α) :
    Except String α × RequestStorage α × List String :=
  let r := getServiceInstances st
  match getServiceProvider r.2 with
  | .error m => (.error m, r.2, [])
  | .ok provider =>
    let res := resolveServiceInternal ident r.1 provider
    (res.1, { r.2 with instances? := some res.2.1 }, res.2.2)

/-- `defineCatalog`: for every key of the input mapping, the output binds
that key to the input definition's fields plus `__name` set to the key. -/
def defineCatalog {δ : Type} (catalog : List (String × δ)) :
    List (String × CatalogEntry δ) :=
  catalog.map (fun p => (p.1, ⟨p.2, p.1⟩))

/-- One property of a `services` surface object: either a plain data
property (as produced by copying during object spread) or the lazy accessor
installed by `Object.defineProperty` for a catalog entry. -/
inductive SurfaceProp (α δ : Type) where
  | data (v : α)
  | getter (e : CatalogEntry δ)
deriving DecidableEq, Repr

/-- A `services` surface: the object's own enumerable properties in order. -/
def Surface (α δ : Type) : Type := List (String × SurfaceProp α δ)

/-- Reading one property: a data property yields its value with no effect; a
getter runs `resolveServiceInternal` against the captured cache/provider. -/
def readProp {α δ : Type} (p : SurfaceProp α δ) (instances : ServiceInstances α)
    (provider : ServiceProvider α) :
    Except String α × ServiceInstances α × List String :=
  match p with
  | .data v => (.ok v, instances, [])
  | .getter e => resolveServiceInternal (ServiceIdent.entry e) instances provider

/-- Object spread `{...existingServices}`: copies the own enumerable
properties in order, reading each one — so getters are invoked — and storing
the obtained value as a plain data property.  A getter that throws aborts
the spread. -/
def spreadSurface {α δ : Type} (s : Surface α δ) (instances : ServiceInstances α)
    (provider : ServiceProvider α) :
    Except String (Surface α δ) × ServiceInstances α × List String :=
  match s with
  | [] => (.ok [], instances, [])
  | (n, p) :: rest =>
    match readProp p instances provider with
    | (.error m, instances', tr) => (.error m, instances', tr)
    | (.ok v, instances', tr) =>
      match spreadSurface rest instances' provider with
      | (.error m, instances'', tr') => (.error m, instances'', tr ++ tr')
      | (.ok copied, instances'', tr') =>
        (.ok ((n, SurfaceProp.data v) :: copied), instances'', tr ++ tr')

/-- The `Object.defineProperty` loop of `withServices`: installs a lazy
getter for each listed entry under its `__name`, overwriting in place any
property copied from the earlier surface. -/
def defineGetters {α δ : Type} (entries : List (CatalogEntry δ)) (s : Surface α δ) :
    Surface α δ :=
  entries.foldl (fun acc e => mapSet acc e.__name (SurfaceProp.getter e)) s

/-- The body of the middleware returned by `withServices(...entries)`, acting
on the surface already attached to the context (`extra?.services ?? {}` is
passed as `existing`, so `[]` when none).  It spreads the existing surface
(reading — and thus resolving — its getter-backed properties), then installs
a getter per listed entry, and the result becomes the new
`context.extra.services`. -/
def withServices {α δ : Type} (entries : List (CatalogEntry δ))
    (existing : Surface α δ) (instances : ServiceInstances α)
    (provider : ServiceProvider α) :
    Except String (Surface α δ) × ServiceInstances α × List String :=
  match spreadSurface existing instances provider with
  | (.error m, instances', tr) => (.error m, instances', tr)
  | (.ok copied, instances', tr) => (.ok (defineGetters entries copied), instances', tr)

/-- The service name carried by an identifier (the `__name` of a catalog
entry, the `serviceName` argument of the route overload). -/
def identName {δ : Type} : ServiceIdent δ → String
  | .entry e => e.__name
  | .routeScoped _ name => name

/-- The registry holds nothing that shadows this identifier's registration
on its own resolution path: always true for route-scoped identifiers (their
composite key is consulted first), and for catalog entries it means no
factory sits under the wildcard composite key `ANY::name`. -/
def identNotShadowed {α δ : Type} (p : ServiceProvider α) : ServiceIdent δ → Prop
  | .entry e => mapGet? p.factories (routeKey "ANY" "" e.__name) = none
  | .routeScoped _ _ => True

/-- The spec's dual-registration scenario: starting from an empty registry,
register `f` for `(route, name)` through the route overload and `g` for the
catalog entry named `name` (with payload `d`) through the entry overload. -/
def bothRegistered {α δ : Type} (route : Route) (name : String)
    (f g : ServiceFactory α) (d : δ) : ServiceProvider α :=
  (ServiceProvider.provide ⟨[]⟩ (ServiceIdent.routeScoped (δ := δ) route name) f).provide
    (ServiceIdent.entry (δ := δ) ⟨d, name⟩) g

/-! ### Basic lemmas about the map model and keys -/

theorem mapGet?_mapSet_self {α : Type} (m : List (String × α)) (k : String) (v : α) :
    mapGet? (mapSet m k v) k = some v := by
  induction m with
  | nil => simp [mapSet, mapGet?]
  | cons hd tl ih =>
    obtain ⟨k', v'⟩ := hd
    by_cases h : k' = k
    · simp [mapSet, h, mapGet?]
    · simp [mapSet, h, mapGet?, ih]

theorem mapGet?_mapSet_ne {α : Type} (m : List (String × α)) {k k' : String}
    (h : k' ≠ k) (v : α) : mapGet? (mapSet m k v) k' = mapGet? m k' := by
  induction m with
  | nil => simp [mapSet, mapGet?, Ne.symm h]
  | cons hd tl ih =>
    obtain ⟨k₀, v₀⟩ := hd
    by_cases hk : k₀ = k
    · subst hk
      simp [mapSet, mapGet?, Ne.symm h]
    · simp only [mapSet, if_neg hk, mapGet?]
      by_cases hk' : k₀ = k'
      · simp [hk']
      · simp [hk', ih]

theorem routeKey_length (method patternSource name : String) :
    (routeKey method patternSource name).length =
      method.length + patternSource.length + name.length + 2 := by
  have hc : (":" : String).length = 1 := rfl
  simp only [routeKey, String.length_append, hc]
  omega

/-- A composite route key is never equal to a bare service name: it is
strictly longer than the name it embeds. -/
theorem routeKey_ne_name (method patternSource name : String) :
    routeKey method patternSource name ≠ name := by
  intro h
  have := congrArg String.length h
  rw [routeKey_length] at this
  omega

/-- The only way a composite route key collides with the synthetic
wildcard's key for the same service name is method `ANY` with an empty
pattern source. -/
theorem routeKey_eq_wildcard {method patternSource name : String}
    (h : routeKey method patternSource name = routeKey "ANY" "" name) :
    method = "ANY" ∧ patternSource = "" := by
  have hdata := congrArg String.data h
  simp only [routeKey, String.data_append, List.append_assoc, List.nil_append,
    List.cons_append, List.singleton_append] at hdata
  match hm : method.data with
  | [] =>
    rw [hm, List.nil_append] at hdata
    obtain ⟨h1, -⟩ := List.cons.inj hdata
    exact absurd h1 (by decide)
  | [a] =>
    rw [hm] at hdata
    simp only [List.cons_append, List.nil_append, List.cons.injEq] at hdata
    obtain ⟨-, h2, -⟩ := hdata
    exact absurd h2 (by decide)
  | [a, b] =>
    rw [hm] at hdata
    simp only [List.cons_append, List.nil_append, List.cons.injEq] at hdata
    obtain ⟨-, -, h3, -⟩ := hdata
    exact absurd h3 (by decide)
  | [a, b, c] =>
    rw [hm] at hdata
    simp only [List.cons_append, List.nil_append, List.cons.injEq] at hdata
    obtain ⟨h1, h2, h3, -, h4⟩ := hdata
    have hs : patternSource.data = [] := by
      have hlen := congrArg List.length h4
      simp only [List.length_append, List.length_cons] at hlen
      have : patternSource.data.length = 0 := by omega
      exact List.eq_nil_of_length_eq_zero this
    refine ⟨String.ext ?_, String.ext ?_⟩
    · rw [hm, h1, h2, h3]
    · rw [hs]
  | a :: b :: c :: d :: t =>
    rw [hm] at hdata
    simp only [List.cons_append, List.nil_append, List.cons.injEq] at hdata
    obtain ⟨-, -, -, -, h5⟩ := hdata
    have hlen := congrArg List.length h5
    simp only [List.length_append, List.length_cons] at hlen
    omega

/-- `resolveServiceInternal`, written uniformly through `canonicalKey`,
`identLookup` and `missingServiceMsg`. -/
theorem resolveServiceInternal_eq {α δ : Type} (ident : ServiceIdent δ)
    (instances : ServiceInstances α) (provider : ServiceProvider α) :
    resolveServiceInternal ident instances provider =
      match mapGet? instances (canonicalKey ident) with
      | some v => (.ok v, instances, [])
      | none =>
        match identLookup provider ident with
        | none => (.error (missingServiceMsg ident), instances, [])
        | some factory =>
          (.ok (factory ()), mapSet instances (canonicalKey ident) (factory ()),
            [canonicalKey ident]) := by
  cases ident <;> rfl

/-! ### Claim theorems -/

/-- Claim C1: memoization / at-most-once instantiation.  If the request's
instance cache already holds a value under the identifier's canonical key,
`resolveServiceInternal` returns that cached value, leaves the cache
unchanged, and invokes no factory; otherwise, when a factory is registered,
it invokes it exactly once, stores the produced value under that key, and
returns it.  Consequently a second resolution of the same identifier
returns the identical value with no further invocation, and the top-level
`resolveService` exposes exactly this behaviour against the request
scope's stored cache. -/
theorem resolveServiceInternal_memoizes {α δ : Type} (ident : ServiceIdent δ)
    (instances : ServiceInstances α) (provider : ServiceProvider α) :
    (∀ v, mapGet? instances (canonicalKey ident) = some v →
      resolveServiceInternal ident instances provider = (.ok v, instances, [])) ∧
    (mapGet? instances (canonicalKey ident) = none →
      ∀ f, identLookup provider ident = some f →
        resolveServiceInternal ident instances provider =
          (.ok (f ()), mapSet instances (canonicalKey ident) (f ()),
            [canonicalKey ident])) ∧
    (∀ v instances' tr,
      resolveServiceInternal ident instances provider = (.ok v, instances', tr) →
        resolveServiceInternal ident instances' provider = (.ok v, instances', [])) ∧
    (∀ st : RequestStorage α, st.provider? = some provider →
      st.instances? = some instances →
      resolveService ident st =
        ((resolveServiceInternal ident instances provider).1,
          { st with instances? := some (resolveServiceInternal ident instances provider).2.1 },
          (resolveServiceInternal ident instances provider).2.2)) := by
  refine ⟨?_, ?_, ?_, ?_⟩
  · intro v hv
    rw [resolveServiceInternal_eq, hv]
  · intro hnone f hf
    rw [resolveServiceInternal_eq, hnone, hf]
  · intro v instances' tr h
    rw [resolveServiceInternal_eq] at h
    cases hv : mapGet? instances (canonicalKey ident) with
    | some w =>
      rw [hv] at h
      simp only [Prod.mk.injEq, Except.ok.injEq] at h
      obtain ⟨h1, h2, -⟩ := h
      subst h1 h2
      rw [resolveServiceInternal_eq, hv]
    | none =>
      rw [hv] at h
      cases hl : identLookup provider ident with
      | none =>
        rw [hl] at h
        simp only [Prod.mk.injEq] at h
        exact absurd h.1 (by simp)
      | some f =>
        rw [hl] at h
        simp only [Prod.mk.injEq, Except.ok.injEq] at h
        obtain ⟨h1, h2, -⟩ := h
        subst h1 h2
        rw [resolveServiceInternal_eq, mapGet?_mapSet_self]
  · intro st h1 h2
    simp only [resolveService, getServiceInstances, h2, getServiceProvider, h1]

/-- Claim C1 witness: a cache miss invokes the factory once and stores 7
under `svc`; the immediate second resolution returns the cached 7 with no
invocation. -/
theorem resolveServiceInternal_memoizes_witness :
    (resolveServiceInternal (ServiceIdent.entry (δ := Unit) ⟨(), "svc"⟩)
        ([] : ServiceInstances Nat) ⟨[("svc", fun _ => 7)]⟩
      = (.ok 7, [("svc", 7)], ["svc"])) ∧
    (resolveServiceInternal (ServiceIdent.entry (δ := Unit) ⟨(), "svc"⟩)
        ([("svc", 7)] : ServiceInstances Nat) ⟨[("svc", fun _ => 7)]⟩
      = (.ok 7, [("svc", 7)], [])) := by
  constructor
  · exact (resolveServiceInternal_memoizes (ServiceIdent.entry ⟨(), "svc"⟩) []
      ⟨[("svc", fun _ => 7)]⟩).2.1 rfl (fun _ => 7) rfl
  · exact (resolveServiceInternal_memoizes (ServiceIdent.entry ⟨(), "svc"⟩) [("svc", 7)]
      ⟨[("svc", fun _ => 7)]⟩).1 7 rfl

/-- Claim C5: resolution throws exactly when the cache misses and the
route-then-global fallback finds no factory; the thrown message is the
`missingServiceMsg`, which names the missing service and, for route-scoped
identifiers, the method and pattern it was requested for; when a factory is
found, the resolved value is returned instead. -/
theorem resolve_error_iff_unregistered {α δ : Type} (ident : ServiceIdent δ)
    (instances : ServiceInstances α) (provider : ServiceProvider α) :
    ((∃ msg, (resolveServiceInternal ident instances provider).1 = .error msg) ↔
      (mapGet? instances (canonicalKey ident) = none ∧
        identLookup provider ident = none)) ∧
    (∀ msg, (resolveServiceInternal ident instances provider).1 = .error msg →
      msg = missingServiceMsg ident) ∧
    (∃ pre post, missingServiceMsg ident = pre ++ identName ident ++ post) ∧
    (∀ route name, ident = ServiceIdent.routeScoped route name →
      (∃ a b, missingServiceMsg ident = a ++ route.method ++ b) ∧
      (∃ a b, missingServiceMsg ident = a ++ route.patternSource ++ b)) ∧
    (mapGet? instances (canonicalKey ident) = none →
      ∀ f, identLookup provider ident = some f →
        (resolveServiceInternal ident instances provider).1 = .ok (f ())) := by
  refine ⟨?_, ?_, ?_, ?_, ?_⟩
  · rw [resolveServiceInternal_eq]
    cases hv : mapGet? instances (canonicalKey ident) with
    | some w => simp
    | none =>
      cases hl : identLookup provider ident with
      | none => simp
      | some f => simp
  · intro msg h
    rw [resolveServiceInternal_eq] at h
    cases hv : mapGet? instances (canonicalKey ident) with
    | some w => rw [hv] at h; simp at h
    | none =>
      rw [hv] at h
      cases hl : identLookup provider ident with
      | none =>
        rw [hl] at h
        simp only [Except.error.injEq] at h
        exact h.symm
      | some f => rw [hl] at h; simp at h
  · cases ident with
    | entry e =>
      exact ⟨"No factory registered for service \"",
        "\". Did you forget to call serviceProvider.provide()?", rfl⟩
    | routeScoped route name =>
      refine ⟨"No factory registered for service \"",
        "\" on route \"" ++ route.method ++ " " ++ route.patternSource ++
          "\". Did you forget to call serviceProvider.provide()?", ?_⟩
      simp only [missingServiceMsg, identName, String.append_assoc]
  · intro route name hid
    subst hid
    constructor
    · refine ⟨"No factory registered for service \"" ++ name ++ "\" on route \"",
        " " ++ route.patternSource ++
          "\". Did you forget to call serviceProvider.provide()?", ?_⟩
      simp only [missingServiceMsg, String.append_assoc]
    · refine ⟨"No factory registered for service \"" ++ name ++ "\" on route \"" ++
          route.method ++ " ",
        "\". Did you forget to call serviceProvider.provide()?", ?_⟩
      simp only [missingServiceMsg, String.append_assoc]
  · intro hnone f hf
    rw [resolveServiceInternal_eq, hnone, hf]

/-- Claim C5 witness: resolving the never-registered `ghost` entry against
an empty registry yields exactly the missing-service error; resolving a
registered one yields its value. -/
theorem resolve_error_iff_unregistered_witness :
    ((resolveServiceInternal (ServiceIdent.entry (δ := Unit) ⟨(), "ghost"⟩)
        ([] : ServiceInstances Nat) ⟨[]⟩).1 =
      .error ("No factory registered for service \"ghost\"" ++
        ". Did you forget to call serviceProvider.provide()?")) ∧
    ((resolveServiceInternal (ServiceIdent.entry (δ := Unit) ⟨(), "svc"⟩)
        ([] : ServiceInstances Nat) ⟨[("svc", fun _ => 9)]⟩).1 = .ok 9) := by
  constructor
  · have h := (resolve_error_iff_unregistered (ServiceIdent.entry (δ := Unit) ⟨(), "ghost"⟩)
      ([] : ServiceInstances Nat) ⟨[]⟩).1.mpr ⟨rfl, rfl⟩
    obtain ⟨msg, hmsg⟩ := h
    have he := (resolve_error_iff_unregistered (ServiceIdent.entry (δ := Unit) ⟨(), "ghost"⟩)
      ([] : ServiceInstances Nat) ⟨[]⟩).2.1 msg hmsg
    rw [hmsg, he]
    rfl
  · exact (resolve_error_iff_unregistered (ServiceIdent.entry (δ := Unit) ⟨(), "svc"⟩)
      ([] : ServiceInstances Nat) ⟨[("svc", fun _ => 9)]⟩).2.2.2.2 rfl (fun _ => 9) rfl

/-- Claim C10: failed resolution is atomic.  When no factory is registered,
the call returns the error with the cache exactly as given and an empty
invocation trace; the cache changes only on the success path, where the
single stored entry is the freshly produced value under the canonical key. -/
theorem resolve_failure_atomic {α δ : Type} (ident : ServiceIdent δ)
    (instances : ServiceInstances α) (provider : ServiceProvider α) :
    (∀ msg, (resolveServiceInternal ident instances provider).1 = .error msg →
      resolveServiceInternal ident instances provider = (.error msg, instances, [])) ∧
    (∀ r instances' tr,
      resolveServiceInternal ident instances provider = (r, instances', tr) →
      instances' ≠ instances →
        ∃ v, r = .ok v ∧ instances' = mapSet instances (canonicalKey ident) v ∧
          tr = [canonicalKey ident]) := by
  constructor
  · intro msg h
    rw [resolveServiceInternal_eq] at h ⊢
    cases hv : mapGet? instances (canonicalKey ident) with
    | some w => rw [hv] at h; simp at h
    | none =>
      rw [hv] at h
      cases hl : identLookup provider ident with
      | none =>
        rw [hl] at h
        have h' : (Except.error (missingServiceMsg ident) : Except String α) =
            Except.error msg := h
        injection h' with hmsg
        rw [← hmsg]
      | some f => rw [hl] at h; simp at h
  · intro r instances' tr h hne
    rw [resolveServiceInternal_eq] at h
    cases hv : mapGet? instances (canonicalKey ident) with
    | some w =>
      rw [hv] at h
      simp only [Prod.mk.injEq] at h
      exact absurd h.2.1.symm hne
    | none =>
      rw [hv] at h
      cases hl : identLookup provider ident with
      | none =>
        rw [hl] at h
        simp only [Prod.mk.injEq] at h
        exact absurd h.2.1.symm hne
      | some f =>
        rw [hl] at h
        simp only [Prod.mk.injEq] at h
        exact ⟨f (), h.1.symm, h.2.1.symm, h.2.2.symm⟩

/-- Claim C10 witness: resolving the unregistered `ghost` entry against a
non-empty cache leaves the cache exactly as it was, with no invocation. -/
theorem resolve_failure_atomic_witness :
    resolveServiceInternal (ServiceIdent.entry (δ := Unit) ⟨(), "ghost"⟩)
        ([("other", 3)] : ServiceInstances Nat) ⟨[]⟩ =
      (.error (missingServiceMsg (ServiceIdent.entry (δ := Unit) ⟨(), "ghost"⟩)),
        [("other", 3)], []) := by
  exact (resolve_failure_atomic (ServiceIdent.entry (δ := Unit) ⟨(), "ghost"⟩)
    ([("other", 3)] : ServiceInstances Nat) ⟨[]⟩).1
    (missingServiceMsg (ServiceIdent.entry ⟨(), "ghost"⟩)) rfl

/-- Claim C2 counterexample: with `f` registered through the route overload
for the route `{method: ANY, pattern source: ""}` and `g` registered as a
catalog entry under the same bare name, resolving the name via the catalog
entry yields the ROUTE factory's product (1), not the catalog factory's
product (2) — the claim's final sentence fails on this registry. -/
theorem catalog_lookup_route_shadow_cex :
    (resolveServiceInternal (ServiceIdent.entry (δ := Unit) ⟨(), "svc"⟩)
        ([] : ServiceInstances Nat)
        (bothRegistered ⟨"ANY", ""⟩ "svc" (fun _ => 1) (fun _ => 2) ())
      = (.ok 1, [("svc", 1)], ["svc"])) ∧ (1 : Nat) ≠ 2 :=
  ⟨rfl, by decide⟩

/-- Claim C2 (amended): `getFactory` consults the composite
`method:patternSource:name` key first and falls back to the bare name; with
both a route-scoped and a catalog registration of the same name, the route
path resolves to the route factory's product unconditionally, and the
catalog path resolves to the catalog factory's product provided the route
is not the synthetic wildcard (method `ANY` with empty pattern source). -/
theorem getFactory_precedence {α δ : Type} (p : ServiceProvider α) (route : Route)
    (name : String) (f g : ServiceFactory α) (d : δ) :
    (∀ h, mapGet? p.factories (routeKey route.method route.patternSource name) = some h →
      p.getFactory route name = some h) ∧
    (mapGet? p.factories (routeKey route.method route.patternSource name) = none →
      p.getFactory route name = mapGet? p.factories name) ∧
    ((bothRegistered route name f g d).getFactory route name = some f) ∧
    (resolveServiceInternal (ServiceIdent.routeScoped (δ := δ) route name) []
        (bothRegistered route name f g d) =
      (.ok (f ()), mapSet [] (routeKey route.method route.patternSource name) (f ()),
        [routeKey route.method route.patternSource name])) ∧
    (¬(route.method = "ANY" ∧ route.patternSource = "") →
      resolveServiceInternal (ServiceIdent.entry (δ := δ) ⟨d, name⟩) []
          (bothRegistered route name f g d) =
        (.ok (g ()), mapSet [] name (g ()), [name])) := by
  have hfac : (bothRegistered route name f g d).factories =
      mapSet (mapSet [] (routeKey route.method route.patternSource name) f) name g := rfl
  have hroute : (bothRegistered route name f g d).getFactory route name = some f := by
    simp only [ServiceProvider.getFactory, hfac]
    rw [mapGet?_mapSet_ne _ (routeKey_ne_name route.method route.patternSource name) g,
      mapGet?_mapSet_self]
  refine ⟨?_, ?_, hroute, ?_, ?_⟩
  · intro h hh
    simp only [ServiceProvider.getFactory, hh]
  · intro hh
    simp only [ServiceProvider.getFactory, hh]
  · rw [resolveServiceInternal_eq]
    simp only [canonicalKey, identLookup, mapGet?, hroute]
  · intro hny
    have hne : routeKey "ANY" "" name ≠ routeKey route.method route.patternSource name :=
      fun hcontra => hny (routeKey_eq_wildcard hcontra.symm)
    have hcat : identLookup (bothRegistered route name f g d)
        (ServiceIdent.entry (δ := δ) ⟨d, name⟩) = some g := by
      simp only [identLookup, ServiceProvider.getFactory, anyRoute, hfac]
      rw [mapGet?_mapSet_ne _ (routeKey_ne_name "ANY" "" name) g,
        mapGet?_mapSet_ne _ hne f]
      simp only [mapGet?, mapGet?_mapSet_self]
    rw [resolveServiceInternal_eq]
    simp only [canonicalKey, identLookup, mapGet?, hcat] at hcat ⊢
    rw [hcat]

/-- Claim C2 witness: for the non-wildcard route `GET /posts`, the route
path yields the route factory's product 1 and the catalog path yields the
catalog factory's product 2; on an empty registry the lookup falls back to
the bare name. -/
theorem getFactory_precedence_witness :
    ((⟨[]⟩ : ServiceProvider Nat).getFactory ⟨"GET", "/posts"⟩ "svc" =
      mapGet? ([] : List (String × ServiceFactory Nat)) "svc") ∧
    (resolveServiceInternal (ServiceIdent.routeScoped (δ := Unit) ⟨"GET", "/posts"⟩ "svc")
        ([] : ServiceInstances Nat)
        (bothRegistered ⟨"GET", "/posts"⟩ "svc" (fun _ => 1) (fun _ => 2) ())
      = (.ok 1, [("GET:/posts:svc", 1)], ["GET:/posts:svc"])) ∧
    (resolveServiceInternal (ServiceIdent.entry (δ := Unit) ⟨(), "svc"⟩)
        ([] : ServiceInstances Nat)
        (bothRegistered ⟨"GET", "/posts"⟩ "svc" (fun _ => 1) (fun _ => 2) ())
      = (.ok 2, [("svc", 2)], ["svc"])) := by
  refine ⟨?_, ?_, ?_⟩
  · exact (getFactory_precedence (⟨[]⟩ : ServiceProvider Nat) ⟨"GET", "/posts"⟩ "svc"
      (fun _ => 1) (fun _ => 2) ()).2.1 rfl
  · exact (getFactory_precedence (⟨[]⟩ : ServiceProvider Nat) ⟨"GET", "/posts"⟩ "svc"
      (fun _ => 1) (fun _ => 2) ()).2.2.2.1
  · exact (getFactory_precedence (⟨[]⟩ : ServiceProvider Nat) ⟨"GET", "/posts"⟩ "svc"
      (fun _ => 1) (fun _ => 2) ()).2.2.2.2 (by decide)

/-- Claim C3 counterexample: a registry populated ONLY through the
route-scoped overload (route `{method: ANY, pattern source: ""}`) — it has
no bare-name entry at all — still answers the catalog-entry resolution path
with the route-registered factory's product. -/
theorem catalog_path_route_registered_cex :
    (mapGet? (ServiceProvider.provide (δ := Unit) (⟨[]⟩ : ServiceProvider Nat)
        (ServiceIdent.routeScoped ⟨"ANY", ""⟩ "svc") (fun _ => 5)).factories "svc" = none) ∧
    (resolveServiceInternal (ServiceIdent.entry (δ := Unit) ⟨(), "svc"⟩)
        ([] : ServiceInstances Nat)
        (ServiceProvider.provide (δ := Unit) (⟨[]⟩ : ServiceProvider Nat)
          (ServiceIdent.routeScoped ⟨"ANY", ""⟩ "svc") (fun _ => 5))
      = (.ok 5, [("svc", 5)], ["svc"])) :=
  ⟨rfl, rfl⟩

/-- Claim C3 (amended): whenever the registry holds no factory under the
wildcard composite key `ANY::name` — i.e. no route-scoped registration with
method `ANY` and empty pattern source for that name — the catalog-entry
resolution path consults exactly the bare-name entry: the registry query
equals the bare-name lookup and the whole resolution is determined by the
cache and that bare-name entry alone. -/
theorem catalog_path_bare_name_only {α δ : Type} (p : ServiceProvider α)
    (e : CatalogEntry δ)
    (h : mapGet? p.factories (routeKey "ANY" "" e.__name) = none) :
    (identLookup p (ServiceIdent.entry e) = mapGet? p.factories e.__name) ∧
    (∀ instances : ServiceInstances α,
      resolveServiceInternal (ServiceIdent.entry e) instances p =
        match mapGet? instances e.__name with
        | some v => (.ok v, instances, [])
        | none =>
          match mapGet? p.factories e.__name with
          | none => (.error (missingServiceMsg (ServiceIdent.entry e)), instances, [])
          | some f => (.ok (f ()), mapSet instances e.__name (f ()), [e.__name])) := by
  have h1 : identLookup p (ServiceIdent.entry e) = mapGet? p.factories e.__name := by
    simp only [identLookup, ServiceProvider.getFactory, anyRoute]
    rw [h]
  refine ⟨h1, ?_⟩
  intro instances
  rw [resolveServiceInternal_eq]
  simp only [canonicalKey, h1]

/-- Claim C3 witness: with only the bare-name factory for `svc` present
(so the wildcard key is vacant), the catalog query equals the bare-name
lookup and resolution yields that factory's product. -/
theorem catalog_path_bare_name_only_witness :
    (identLookup (⟨[("svc", fun _ => 3)]⟩ : ServiceProvider Nat)
        (ServiceIdent.entry (δ := Unit) ⟨(), "svc"⟩) =
      mapGet? [("svc", fun _ => 3)] "svc") ∧
    (resolveServiceInternal (ServiceIdent.entry (δ := Unit) ⟨(), "svc"⟩)
        ([] : ServiceInstances Nat) ⟨[("svc", fun _ => 3)]⟩
      = (.ok 3, [("svc", 3)], ["svc"])) := by
  constructor
  · exact (catalog_path_bare_name_only (⟨[("svc", fun _ => 3)]⟩ : ServiceProvider Nat)
      ⟨(), "svc"⟩ rfl).1
  · exact (catalog_path_bare_name_only (⟨[("svc", fun _ => 3)]⟩ : ServiceProvider Nat)
      ⟨(), "svc"⟩ rfl).2 []

/-- Claim C7 counterexample: `svc` is registered as a catalog entry (factory
2) and then re-registered (factory 3), but a route-overload registration for
the wildcard-colliding route `{ANY, ""}` (factory 1) shadows the bare name
on the catalog resolution path, so the subsequent uncached resolution uses
factory 1 — neither the prior nor the new catalog factory. -/
theorem provide_rereg_shadow_cex :
    (resolveServiceInternal (ServiceIdent.entry (δ := Unit) ⟨(), "svc"⟩)
        ([] : ServiceInstances Nat)
        (((ServiceProvider.provide (δ := Unit) (⟨[]⟩ : ServiceProvider Nat)
              (ServiceIdent.routeScoped ⟨"ANY", ""⟩ "svc") (fun _ => 1)).provide
            (ServiceIdent.entry (δ := Unit) ⟨(), "svc"⟩) (fun _ => 2)).provide
          (ServiceIdent.entry (δ := Unit) ⟨(), "svc"⟩) (fun _ => 3))
      = (.ok 1, [("svc", 1)], ["svc"])) ∧ (1 : Nat) ≠ 3 :=
  ⟨rfl, by decide⟩

/-- Claim C7 (amended): `provide` stores the factory under the identifier's
canonical key, silently overwriting; every other key keeps its mapping, and
the provider consists of nothing but the updated map.  A subsequent uncached
resolution of that identifier uses the newly stored factory — for route
identifiers unconditionally, for catalog identifiers provided no
wildcard-colliding composite entry `ANY::name` shadows the bare name. -/
theorem provide_postcondition_frame {α δ : Type} (p : ServiceProvider α)
    (ident : ServiceIdent δ) (f : ServiceFactory α) :
    ((p.provide ident f).factories = mapSet p.factories (canonicalKey ident) f) ∧
    (mapGet? (p.provide ident f).factories (canonicalKey ident) = some f) ∧
    (∀ k, k ≠ canonicalKey ident →
      mapGet? (p.provide ident f).factories k = mapGet? p.factories k) ∧
    (∀ instances : ServiceInstances α,
      mapGet? instances (canonicalKey ident) = none →
      identNotShadowed p ident →
        resolveServiceInternal ident instances (p.provide ident f) =
          (.ok (f ()), mapSet instances (canonicalKey ident) (f ()),
            [canonicalKey ident])) := by
  have hfac : (p.provide ident f).factories = mapSet p.factories (canonicalKey ident) f := by
    cases ident <;> rfl
  refine ⟨hfac, ?_, ?_, ?_⟩
  · rw [hfac, mapGet?_mapSet_self]
  · intro k hk
    rw [hfac, mapGet?_mapSet_ne _ hk]
  · intro instances hmiss hshadow
    have hlook : identLookup (p.provide ident f) ident = some f := by
      cases ident with
      | routeScoped route name =>
        simp only [canonicalKey] at hfac
        simp only [identLookup, ServiceProvider.getFactory]
        have : mapGet? (p.provide (ServiceIdent.routeScoped (δ := δ) route name) f).factories
            (routeKey route.method route.patternSource name) = some f := by
          rw [hfac, mapGet?_mapSet_self]
        rw [this]
      | entry e =>
        have hs : mapGet? p.factories (routeKey "ANY" "" e.__name) = none := hshadow
        simp only [canonicalKey] at hfac
        simp only [identLookup, ServiceProvider.getFactory, anyRoute]
        rw [hfac]
        rw [mapGet?_mapSet_ne _ (routeKey_ne_name "ANY" "" e.__name) f, hs,
          mapGet?_mapSet_self]
    rw [resolveServiceInternal_eq, hmiss, hlook]

/-- Claim C7 witness: re-registering the unshadowed catalog entry `svc`
stores the new factory under the bare key, leaves the unrelated key `other`
untouched, and the next uncached resolution produces the new factory's
value 4. -/
theorem provide_postcondition_frame_witness :
    (mapGet? (ServiceProvider.provide (δ := Unit)
        (⟨[("svc", fun _ => 2)]⟩ : ServiceProvider Nat)
        (ServiceIdent.entry ⟨(), "svc"⟩) (fun _ => 4)).factories "svc" =
      some (fun _ => 4)) ∧
    (mapGet? (ServiceProvider.provide (δ := Unit)
        (⟨[("svc", fun _ => 2)]⟩ : ServiceProvider Nat)
        (ServiceIdent.entry ⟨(), "svc"⟩) (fun _ => 4)).factories "other" =
      mapGet? [("svc", fun _ => 2)] "other") ∧
    (resolveServiceInternal (ServiceIdent.entry (δ := Unit) ⟨(), "svc"⟩)
        ([] : ServiceInstances Nat)
        (ServiceProvider.provide (δ := Unit)
          (⟨[("svc", fun _ => 2)]⟩ : ServiceProvider Nat)
          (ServiceIdent.entry ⟨(), "svc"⟩) (fun _ => 4))
      = (.ok 4, [("svc", 4)], ["svc"])) := by
  refine ⟨?_, ?_, ?_⟩
  · exact (provide_postcondition_frame (⟨[("svc", fun _ => 2)]⟩ : ServiceProvider Nat)
      (ServiceIdent.entry (δ := Unit) ⟨(), "svc"⟩) (fun _ => 4)).2.1
  · exact (provide_postcondition_frame (⟨[("svc", fun _ => 2)]⟩ : ServiceProvider Nat)
      (ServiceIdent.entry (δ := Unit) ⟨(), "svc"⟩) (fun _ => 4)).2.2.1 "other" (by decide)
  · exact (provide_postcondition_frame (⟨[("svc", fun _ => 2)]⟩ : ServiceProvider Nat)
      (ServiceIdent.entry (δ := Unit) ⟨(), "svc"⟩) (fun _ => 4)).2.2.2 [] rfl rfl

/-- Claim C6: `getServiceProvider` fails exactly when the request scope's
storage holds no provider handle, with the message pointing at the missing
`withServiceProvider` middleware; when the handle is present it returns
exactly the stored provider (the function reads the storage and does
nothing else). -/
theorem getServiceProvider_missing_iff {α : Type} (st : RequestStorage α) :
    (∀ p, st.provider? = some p → getServiceProvider st = .ok p) ∧
    (st.provider? = none →
      getServiceProvider st =
        .error "No service provider found. Make sure the withServiceProvider middleware is installed.") ∧
    ((∃ msg, getServiceProvider st = .error msg) ↔ st.provider? = none) := by
  refine ⟨?_, ?_, ?_⟩
  · intro p hp
    simp only [getServiceProvider, hp]
  · intro hp
    simp only [getServiceProvider, hp]
  · cases hp : st.provider? with
    | none => simp [getServiceProvider, hp]
    | some p => simp [getServiceProvider, hp]

/-- Claim C6 witness: with a stored provider the call returns exactly it;
with an empty slot it fails with the wiring message. -/
theorem getServiceProvider_missing_iff_witness :
    (getServiceProvider (⟨some ⟨[("svc", fun _ => 1)]⟩, none⟩ : RequestStorage Nat) =
      .ok ⟨[("svc", fun _ => 1)]⟩) ∧
    (getServiceProvider (⟨none, none⟩ : RequestStorage Nat) =
      .error "No service provider found. Make sure the withServiceProvider middleware is installed.") := by
  constructor
  · exact (getServiceProvider_missing_iff
      (⟨some ⟨[("svc", fun _ => 1)]⟩, none⟩ : RequestStorage Nat)).1
      ⟨[("svc", fun _ => 1)]⟩ rfl
  · exact (getServiceProvider_missing_iff (⟨none, none⟩ : RequestStorage Nat)).2.1 rfl

/-- Claim C8: `defineCatalog` binds every input key to the input
definition's fields plus `__name` set to that key, keeps exactly the input's
keys in order, and is order-irrelevant: permuting the input permutes the
output correspondingly (per-key results are unchanged). -/
theorem defineCatalog_spec {δ : Type} (catalog : List (String × δ)) :
    (∀ k, mapGet? (defineCatalog catalog) k =
      (mapGet? catalog k).map (fun d => (⟨d, k⟩ : CatalogEntry δ))) ∧
    ((defineCatalog catalog).map Prod.fst = catalog.map Prod.fst) ∧
    (∀ catalog₂ : List (String × δ), catalog.Perm catalog₂ →
      (defineCatalog catalog).Perm (defineCatalog catalog₂)) := by
  refine ⟨?_, ?_, ?_⟩
  · intro k
    induction catalog with
    | nil => simp [defineCatalog, mapGet?]
    | cons hd tl ih =>
      obtain ⟨k₀, d₀⟩ := hd
      by_cases hk : k₀ = k
      · subst hk
        simp [defineCatalog, mapGet?]
      · simp only [defineCatalog, List.map_cons, mapGet?, if_neg hk]
        exact ih
  · induction catalog with
    | nil => rfl
    | cons hd tl ih =>
      simp only [defineCatalog, List.map_cons] at ih ⊢
      rw [ih]
  · intro catalog₂ h
    exact h.map _

/-- Claim C8 witness: a two-entry catalog gets its names attached, keeps its
keys, and a swapped input yields a permuted output. -/
theorem defineCatalog_spec_witness :
    (mapGet? (defineCatalog [("a", 10), ("b", 20)]) "a" = some ⟨10, "a"⟩) ∧
    ((defineCatalog [("a", 10), ("b", 20)]).map Prod.fst = ["a", "b"]) ∧
    ((defineCatalog [("a", 10), ("b", 20)]).Perm (defineCatalog [("b", 20), ("a", 10)])) := by
  refine ⟨?_, ?_, ?_⟩
  · exact (defineCatalog_spec [("a", 10), ("b", 20)]).1 "a"
  · exact (defineCatalog_spec [("a", 10), ("b", 20)]).2.1
  · exact (defineCatalog_spec [("a", 10), ("b", 20)]).2.2 [("b", 20), ("a", 10)]
      (List.Perm.swap _ _ _)

/-- Claim C9: the cache-obtaining step is idempotent per request scope.  On
first use it creates the empty cache, stores it, and returns it; when a
cache is already stored it returns exactly that cache with the storage
untouched; hence a repeated call returns the same cache and the same
storage, so every resolution in the scope works against the single stored
cache. -/
theorem getServiceInstances_idempotent {α : Type} (st : RequestStorage α) :
    (st.instances? = none →
      getServiceInstances st =
        (([] : ServiceInstances α), { st with instances? := some [] })) ∧
    (∀ m, st.instances? = some m → getServiceInstances st = (m, st)) ∧
    (getServiceInstances (getServiceInstances st).2 =
      ((getServiceInstances st).1, (getServiceInstances st).2)) := by
  refine ⟨?_, ?_, ?_⟩
  · intro h
    simp only [getServiceInstances, h]
  · intro m h
    simp only [getServiceInstances, h]
  · cases h : st.instances? with
    | none => simp [getServiceInstances, h]
    | some m => simp [getServiceInstances, h]

/-- Claim C9 witness: in a fresh scope the first call creates and stores the
empty cache and the second call returns that same stored cache unchanged. -/
theorem getServiceInstances_idempotent_witness :
    (getServiceInstances (⟨none, none⟩ : RequestStorage Nat) =
      ([], ⟨none, some []⟩)) ∧
    (getServiceInstances (⟨none, some []⟩ : RequestStorage Nat) =
      ([], ⟨none, some []⟩)) := by
  constructor
  · exact (getServiceInstances_idempotent (⟨none, none⟩ : RequestStorage Nat)).1 rfl
  · exact (getServiceInstances_idempotent (⟨none, some []⟩ : RequestStorage Nat)).2.1 [] rfl

/-- Claim C4, evaluated at the failing input.  First application of
`withServices` for entry `a` on an empty surface: the getter is installed
and NO factory runs (empty trace).  Second application for entry `b` over
that surface: the object spread `{...existingServices}` reads the `a`
getter, so the `a` factory runs AT ATTACHMENT TIME (trace `["a"]`, cache
now populated), contradicting the claim that attachment never invokes a
factory; the earlier entry stays accessible, as a plain data property
holding the resolved value. -/
theorem withServices_merge_eager_resolution :
    (withServices (α := Nat) [⟨(), "a"⟩] [] []
        ⟨[("a", fun _ => 7), ("b", fun _ => 8)]⟩
      = (.ok [("a", SurfaceProp.getter ⟨(), "a"⟩)], [], [])) ∧
    (withServices (α := Nat) [⟨(), "b"⟩]
        [("a", SurfaceProp.getter ⟨(), "a"⟩)] []
        ⟨[("a", fun _ => 7), ("b", fun _ => 8)]⟩
      = (.ok [("a", SurfaceProp.data 7), ("b", SurfaceProp.getter ⟨(), "b"⟩)],
          [("a", 7)], ["a"])) ∧
    (["a"] ≠ ([] : List String)) :=
  ⟨rfl, rfl, by decide⟩

end RouterServices
